import Mathlib

/-!
Shallow embedding of the CommerceAgent web frontend
(`apps/web/lib/CartContext.tsx`, `apps/web/app/page.tsx`,
`apps/web/lib/agentClient.ts`, `apps/web/components/Chat.tsx`)
and proofs about the cart state machine, the client-side price-range
filter and the agent-client error path.

Numbers: the TypeScript sources do exact integer arithmetic on
`price_cents` and `quantity` (JS numbers, integral throughout), embedded
as `Int`; the price filter divides by 100 before comparing, embedded in
`ℚ` (exact for the decimal values involved).
-/

namespace ECom

/-- `ProductCard` from `apps/web/lib/types.ts`, restricted to the fields
the cart reducer and the price filter read or copy (`id`, `price_cents`)
plus representative carried-along display fields (`title`, `currency`);
the remaining optional display fields are irrelevant to every claim. -/
structure ProductCard where
  id : String
  title : String
  price_cents : Int
  currency : String
deriving Repr, DecidableEq

/-- `CartItem = ProductCard & { quantity: number }` from `CartContext.tsx`. -/
structure CartItem where
  id : String
  title : String
  price_cents : Int
  currency : String
  quantity : Int
deriving Repr, DecidableEq

/-- The spread `{ ...product, quantity: q }` building a cart item from a
product card (`CartContext.tsx`, line 36). -/
def ProductCard.toItem (p : ProductCard) (q : Int) : CartItem :=
  { id := p.id, title := p.title, price_cents := p.price_cents,
    currency := p.currency, quantity := q }

/-- `CartState` from `CartContext.tsx`. -/
structure CartState where
  items : List CartItem
  total : Int
deriving Repr, DecidableEq

/-- `CartAction` from `CartContext.tsx`. -/
inductive CartAction where
  | addToCart (product : ProductCard)
  | removeFromCart (productId : String)
  | updateQuantity (productId : String) (quantity : Int)
  | clearCart
deriving Repr, DecidableEq

/-- `items.reduce((sum, item) => sum + (item.price_cents * item.quantity), 0)`,
the subtotal recomputation appearing in every branch of `cartReducer`. -/
def cartTotal (items : List CartItem) : Int :=
  items.foldl (fun sum item => sum + item.price_cents * item.quantity) 0

/-- `cartReducer` from `apps/web/lib/CartContext.tsx`, lines 21-65.
String comparison `item.id === action.product.id` is decidable string
equality. -/
def cartReducer (state : CartState) (action : CartAction) : CartState :=
  match action with
  | .addToCart product =>
    match state.items.find? (fun item => item.id == product.id) with
    | some _ =>
      let updatedItems := state.items.map (fun item =>
        if item.id == product.id
          then { item with quantity := item.quantity + 1 }
          else item)
      { items := updatedItems, total := cartTotal updatedItems }
    | none =>
      let newItem := product.toItem 1
      { items := state.items ++ [newItem],
        total := cartTotal state.items + product.price_cents }
  | .removeFromCart productId =>
    let updatedItems := state.items.filter (fun item => !(item.id == productId))
    { items := updatedItems, total := cartTotal updatedItems }
  | .updateQuantity productId quantity =>
    let updatedItems := state.items.map (fun item =>
      if item.id == productId
        then { item with quantity := quantity }
        else item)
    { items := updatedItems, total := cartTotal updatedItems }
  | .clearCart => { items := [], total := 0 }

/-- The initial reducer state `{ items: [], total: 0 }` (`CartContext.tsx`,
line 76). -/
def emptyCart : CartState := { items := [], total := 0 }

/-- Dispatching a sequence of actions against the initially empty cart. -/
def applyActions (actions : List CartAction) : CartState :=
  actions.foldl cartReducer emptyCart

/- Helper lemmas about `cartTotal`. -/

lemma cartTotal_nil : cartTotal [] = 0 := rfl

lemma cartTotal_go (items : List CartItem) : ∀ a : Int,
    items.foldl (fun sum item => sum + item.price_cents * item.quantity) a
      = a + cartTotal items := by
  induction items with
  | nil => intro a; rw [cartTotal_nil]; simp
  | cons x xs ih =>
    intro a
    rw [List.foldl_cons, ih]
    conv_rhs => rw [cartTotal, List.foldl_cons, ih (0 + x.price_cents * x.quantity)]
    ring

lemma cartTotal_cons (x : CartItem) (xs : List CartItem) :
    cartTotal (x :: xs) = x.price_cents * x.quantity + cartTotal xs := by
  rw [cartTotal, List.foldl_cons, cartTotal_go]
  ring

lemma cartTotal_append (l₁ l₂ : List CartItem) :
    cartTotal (l₁ ++ l₂) = cartTotal l₁ + cartTotal l₂ := by
  induction l₁ with
  | nil => rw [cartTotal_nil, List.nil_append]; ring
  | cons x xs ih => rw [List.cons_append, cartTotal_cons, cartTotal_cons, ih]; ring

/-- The two invariants of the cart state machine: one entry per distinct
product id, and `total` equal to the derived subtotal. -/
def CartInv (s : CartState) : Prop :=
  (s.items.map CartItem.id).Nodup ∧ s.total = cartTotal s.items

lemma map_id_update (items : List CartItem) (f : CartItem → CartItem)
    (hf : ∀ item, (f item).id = item.id) :
    (items.map f).map CartItem.id = items.map CartItem.id := by
  induction items with
  | nil => rfl
  | cons x xs ih => simp [hf, ih]

lemma cartReducer_inv (s : CartState) (a : CartAction) (h : CartInv s) :
    CartInv (cartReducer s a) := by
  obtain ⟨hnodup, -⟩ := h
  cases a with
  | addToCart product =>
    cases hfind : s.items.find? (fun item => item.id == product.id) with
    | some item =>
      simp only [CartInv, cartReducer, hfind]
      refine ⟨?_, trivial⟩
      rw [map_id_update]
      · exact hnodup
      · intro item
        split <;> rfl
    | none =>
      simp only [CartInv, cartReducer, hfind]
      constructor
      · have habs : ∀ item ∈ s.items, item.id ≠ product.id := by
          intro item hmem
          have := List.find?_eq_none.mp hfind item hmem
          simpa using this
        simp only [List.map_append, List.map_cons, List.map_nil]
        rw [List.nodup_append]
        refine ⟨hnodup, List.nodup_singleton _, ?_⟩
        intro x hx hx'
        simp only [ProductCard.toItem, List.mem_singleton] at hx'
        obtain ⟨item, hmem, hid⟩ := List.mem_map.mp hx
        exact habs item hmem (by rw [hid, hx'])
      · rw [cartTotal_append, cartTotal_cons, cartTotal_nil]
        simp only [ProductCard.toItem]
        ring
  | removeFromCart productId =>
    simp only [CartInv, cartReducer]
    refine ⟨?_, trivial⟩
    exact ((List.filter_sublist s.items).map CartItem.id).nodup hnodup
  | updateQuantity productId quantity =>
    simp only [CartInv, cartReducer]
    refine ⟨?_, trivial⟩
    rw [map_id_update]
    · exact hnodup
    · intro item
      split <;> rfl
  | clearCart => exact ⟨List.nodup_nil, rfl⟩

lemma foldl_cartReducer_inv (actions : List CartAction) (s : CartState)
    (h : CartInv s) : CartInv (actions.foldl cartReducer s) := by
  induction actions generalizing s with
  | nil => exact h
  | cons a as ih => exact ih _ (cartReducer_inv s a h)

lemma applyActions_inv (actions : List CartAction) :
    CartInv (applyActions actions) :=
  foldl_cartReducer_inv actions emptyCart ⟨List.nodup_nil, rfl⟩

/-- C1: for every sequence of cart operations applied to the initially
empty cart, the resulting state has at most one entry per distinct
product id (the list of ids has no duplicates) and its `total` field
equals the sum over all entries of `price_cents * quantity`. -/
theorem claim_C1_cart_invariant (actions : List CartAction) :
    ((applyActions actions).items.map CartItem.id).Nodup ∧
      (applyActions actions).total = cartTotal (applyActions actions).items :=
  applyActions_inv actions

/-- C2: `Add(P)` increments the quantity of the entry with id `P.id` by
exactly one when present (all other entries unchanged: the `if` maps them
to themselves), otherwise appends a new entry for `P` with quantity 1 at
the end; and `Add(P); Add(P)` from the empty cart yields quantity 2 and
total `2 * P.price_cents`. -/
theorem claim_C2_add_semantics (s : CartState) (P : ProductCard) :
    ((∃ item ∈ s.items, item.id = P.id) →
      (cartReducer s (.addToCart P)).items
        = s.items.map (fun item =>
            if item.id == P.id
              then { item with quantity := item.quantity + 1 }
              else item)) ∧
    ((∀ item ∈ s.items, item.id ≠ P.id) →
      (cartReducer s (.addToCart P)).items = s.items ++ [P.toItem 1]) ∧
    cartReducer (cartReducer emptyCart (.addToCart P)) (.addToCart P)
      = { items := [P.toItem 2], total := 2 * P.price_cents } := by
  refine ⟨?_, ?_, ?_⟩
  · rintro ⟨item, hmem, hid⟩
    cases hfind : s.items.find? (fun item => item.id == P.id) with
    | some found => simp only [cartReducer, hfind]
    | none =>
      exact absurd (by simpa using List.find?_eq_none.mp hfind item hmem) (by simp [hid])
  · intro h
    have hfind : s.items.find? (fun item => item.id == P.id) = none :=
      List.find?_eq_none.mpr (fun item hmem => by simpa using h item hmem)
    simp only [cartReducer, hfind]
  · have h1 : cartReducer emptyCart (.addToCart P)
        = { items := [P.toItem 1], total := cartTotal [] + P.price_cents } := by
      simp only [cartReducer, emptyCart, List.find?_nil, List.nil_append]
    rw [h1]
    have hfind : [P.toItem 1].find? (fun item => item.id == P.id)
        = some (P.toItem 1) := by
      simp [List.find?, ProductCard.toItem]
    simp only [cartReducer, hfind]
    simp only [List.map_cons, List.map_nil, ProductCard.toItem, beq_self_eq_true,
      if_true]
    rw [CartState.mk.injEq]
    constructor
    · norm_num
    · rw [cartTotal_cons, cartTotal_nil]
      ring

/-- Closed witness for C2: adding a product whose id is already in a
singleton cart increments that entry's quantity. -/
theorem claim_C2_add_semantics_witness :
    (∃ item ∈ (CartState.mk [CartItem.mk "p1" "Shoe" 1000 "USD" 1] 1000).items,
      item.id = (ProductCard.mk "p1" "Shoe" 1000 "USD").id) ∧
    (cartReducer (CartState.mk [CartItem.mk "p1" "Shoe" 1000 "USD" 1] 1000)
        (.addToCart (ProductCard.mk "p1" "Shoe" 1000 "USD"))).items
      = (CartState.mk [CartItem.mk "p1" "Shoe" 1000 "USD" 1] 1000).items.map
          (fun item =>
            if item.id == (ProductCard.mk "p1" "Shoe" 1000 "USD").id
              then { item with quantity := item.quantity + 1 }
              else item) :=
  ⟨by simp, (claim_C2_add_semantics
    (CartState.mk [CartItem.mk "p1" "Shoe" 1000 "USD" 1] 1000)
    (ProductCard.mk "p1" "Shoe" 1000 "USD")).1 (by simp)⟩

/-- C3: `Remove(productId)` deletes the matching entry and recomputes the
total from the surviving items; when no entry matches (including the
empty cart) the state is unchanged. `s.total = cartTotal s.items` is the
data-model invariant of every cart state (spec section 3; established for
all reachable states by the C1 development). -/
theorem claim_C3_remove_semantics (s : CartState) (pid : String)
    (hwf : s.total = cartTotal s.items) :
    ((∀ item ∈ s.items, item.id ≠ pid) →
      cartReducer s (.removeFromCart pid) = s) ∧
    (cartReducer s (.removeFromCart pid)).items
      = s.items.filter (fun item => !(item.id == pid)) ∧
    (cartReducer s (.removeFromCart pid)).total
      = cartTotal ((cartReducer s (.removeFromCart pid)).items) := by
  refine ⟨?_, rfl, rfl⟩
  intro h
  have hfilter : s.items.filter (fun item => !(item.id == pid)) = s.items :=
    List.filter_eq_self.mpr (fun item hmem => by simpa using h item hmem)
  cases s with
  | mk items total =>
    simp only [cartReducer] at *
    rw [CartState.mk.injEq]
    exact ⟨hfilter, by rw [hfilter, hwf]⟩

/-- Closed witness for C3: removing an absent id from the empty cart
leaves it unchanged. -/
theorem claim_C3_remove_semantics_witness :
    emptyCart.total = cartTotal emptyCart.items ∧
      (∀ item ∈ emptyCart.items, item.id ≠ "p9") ∧
      cartReducer emptyCart (.removeFromCart "p9") = emptyCart :=
  ⟨rfl, by simp [emptyCart],
    (claim_C3_remove_semantics emptyCart "p9" rfl).1 (by simp [emptyCart])⟩

/-- C4: `SetQuantity(productId, quantity)` is a silent no-op when the id
is absent; when present, the matching entry's quantity becomes the given
value, every other entry is unchanged (the `if` maps it to itself), and
the total is recomputed from the updated items. The hypothesis is the
data-model invariant of every cart state (spec section 3). -/
theorem claim_C4_update_semantics (s : CartState) (pid : String) (q : Int)
    (hwf : s.total = cartTotal s.items) :
    ((∀ item ∈ s.items, item.id ≠ pid) →
      cartReducer s (.updateQuantity pid q) = s) ∧
    ((∃ item ∈ s.items, item.id = pid) →
      (cartReducer s (.updateQuantity pid q)).items
        = s.items.map (fun item =>
            if item.id == pid then { item with quantity := q } else item) ∧
      (cartReducer s (.updateQuantity pid q)).total
        = cartTotal ((cartReducer s (.updateQuantity pid q)).items)) := by
  refine ⟨?_, fun _ => ⟨rfl, rfl⟩⟩
  intro h
  have hmap : s.items.map (fun item =>
      if item.id == pid then { item with quantity := q } else item) = s.items := by
    rw [List.map_congr_left (g := id), List.map_id]
    intro item hmem
    simp [h item hmem]
  cases s with
  | mk items total =>
    simp only [cartReducer] at *
    rw [CartState.mk.injEq]
    exact ⟨hmap, by rw [hmap, hwf]⟩

/-- Closed witness for C4: setting a quantity for an absent id on the
empty cart leaves it unchanged. -/
theorem claim_C4_update_semantics_witness :
    emptyCart.total = cartTotal emptyCart.items ∧
      (∀ item ∈ emptyCart.items, item.id ≠ "p9") ∧
      cartReducer emptyCart (.updateQuantity "p9" 4) = emptyCart :=
  ⟨rfl, by simp [emptyCart],
    (claim_C4_update_semantics emptyCart "p9" 4 rfl).1 (by simp [emptyCart])⟩

/-- C5: `Clear()` always yields `{items: [], total: 0}`, and the spec
section 8 scenario holds for any product with id `"p1"` and
`price_cents = 1999`: after one Add the total is 1999 with one entry of
quantity 1; after a second Add, 3998 with quantity 2; after
`SetQuantity("p1", 5)`, 9995; after `Remove("p1")`, empty items and
total 0. -/
theorem claim_C5_clear_and_scenario (title currency : String) :
    (∀ s : CartState, cartReducer s .clearCart = { items := [], total := 0 }) ∧
    (applyActions [.addToCart ⟨"p1", title, 1999, currency⟩]
      = { items := [CartItem.mk "p1" title 1999 currency 1], total := 1999 }) ∧
    (applyActions [.addToCart ⟨"p1", title, 1999, currency⟩,
                   .addToCart ⟨"p1", title, 1999, currency⟩]
      = { items := [CartItem.mk "p1" title 1999 currency 2], total := 3998 }) ∧
    (applyActions [.addToCart ⟨"p1", title, 1999, currency⟩,
                   .addToCart ⟨"p1", title, 1999, currency⟩,
                   .updateQuantity "p1" 5]
      = { items := [CartItem.mk "p1" title 1999 currency 5], total := 9995 }) ∧
    (applyActions [.addToCart ⟨"p1", title, 1999, currency⟩,
                   .addToCart ⟨"p1", title, 1999, currency⟩,
                   .updateQuantity "p1" 5,
                   .removeFromCart "p1"]
      = { items := [], total := 0 }) := by
  refine ⟨fun s => rfl, ?_, ?_, ?_, ?_⟩ <;>
    simp [applyActions, emptyCart, cartReducer, List.find?, ProductCard.toItem,
      cartTotal, List.filter]

/-! ## Price-range filter (`apps/web/app/page.tsx`) -/

/-- The `{ min, max }` price bound held in the page's `priceRange` state.
JS numbers embedded as `ℚ` (all arithmetic involved is exact decimal). -/
structure PriceRange where
  min : ℚ
  max : ℚ
deriving DecidableEq

/-- The client-side price filter from `page.tsx` (`handleResponse`, lines
25-29, and the identical `onPriceChange` callback, lines 82-85):
`products.filter(p => p.price_cents / 100 >= min && p.price_cents / 100 <= max)`. -/
def priceFilter (range : PriceRange) (products : List ProductCard) : List ProductCard :=
  products.filter (fun product =>
    decide (range.min ≤ (product.price_cents : ℚ) / 100 ∧
      (product.price_cents : ℚ) / 100 ≤ range.max))

/-- The initial page state `{ min: 0, max: 2000 }` (`page.tsx`, line 18). -/
def initialPriceRange : PriceRange := { min := 0, max := 2000 }

/-- C6: the price filter is idempotent, and the surviving products form a
sublist of the input, i.e. relative order is preserved. (It is a plain
function of its two arguments in this embedding, as in the source, hence
deterministic and stateless by construction.) -/
theorem claim_C6_filter_idempotent (range : PriceRange) (products : List ProductCard) :
    priceFilter range (priceFilter range products) = priceFilter range products ∧
    (priceFilter range products).Sublist products := by
  constructor
  · unfold priceFilter
    rw [List.filter_filter]
    simp [Bool.and_self]
  · exact List.filter_sublist products

/-- Counterexample to C7 as stated: with the degenerate bound
`{min: 10, max: 0}` (`min > max`), a product priced at exactly
`min * 100 = 1000` cents is NOT included in the filtered result. -/
theorem claim_C7_counterexample :
    (ProductCard.mk "x" "X" 1000 "USD").price_cents
        = (PriceRange.mk 10 0).min * 100 ∧
    ProductCard.mk "x" "X" 1000 "USD" ∈ [ProductCard.mk "x" "X" 1000 "USD"] ∧
    ProductCard.mk "x" "X" 1000 "USD"
      ∉ priceFilter (PriceRange.mk 10 0) [ProductCard.mk "x" "X" 1000 "USD"] := by
  refine ⟨by norm_num, List.mem_singleton_self _, ?_⟩
  simp only [priceFilter, List.mem_filter, decide_eq_true_eq]
  rintro ⟨-, -, habs⟩
  norm_num at habs

/-- C7 (amended with `min ≤ max` for the boundary part): membership in
the filtered list is exactly `p ∈ products` plus the inclusive bound
`min ≤ price_cents / 100 ≤ max`; and whenever `min ≤ max`, a listed
product priced at exactly `min * 100` or `max * 100` cents is included. -/
theorem claim_C7_filter_inclusive_bounds (range : PriceRange)
    (products : List ProductCard) (p : ProductCard) :
    (p ∈ priceFilter range products ↔
      p ∈ products ∧ range.min ≤ (p.price_cents : ℚ) / 100 ∧
        (p.price_cents : ℚ) / 100 ≤ range.max) ∧
    (range.min ≤ range.max → p ∈ products →
      ((p.price_cents : ℚ) = range.min * 100 ∨ (p.price_cents : ℚ) = range.max * 100) →
      p ∈ priceFilter range products) := by
  have hiff : p ∈ priceFilter range products ↔
      p ∈ products ∧ range.min ≤ (p.price_cents : ℚ) / 100 ∧
        (p.price_cents : ℚ) / 100 ≤ range.max := by
    simp [priceFilter, List.mem_filter]
  refine ⟨hiff, fun hle hmem hbound => hiff.mpr ⟨hmem, ?_⟩⟩
  rcases hbound with h | h
  · rw [h]
    constructor
    · rw [mul_div_assoc]; norm_num
    · rw [mul_div_assoc]; norm_num; exact hle
  · rw [h]
    constructor
    · rw [mul_div_assoc]; norm_num; exact hle
    · rw [mul_div_assoc]; norm_num

/-- Closed witness for C7 (amended): with bound `{min: 5, max: 20}`, a
product priced at exactly 500 cents survives the filter. -/
theorem claim_C7_filter_inclusive_bounds_witness :
    (PriceRange.mk 5 20).min ≤ (PriceRange.mk 5 20).max ∧
    ProductCard.mk "b" "B" 500 "USD" ∈ [ProductCard.mk "b" "B" 500 "USD"] ∧
    ((ProductCard.mk "b" "B" 500 "USD").price_cents : ℚ)
        = (PriceRange.mk 5 20).min * 100 ∧
    ProductCard.mk "b" "B" 500 "USD"
      ∈ priceFilter (PriceRange.mk 5 20) [ProductCard.mk "b" "B" 500 "USD"] :=
  ⟨by norm_num, List.mem_singleton_self _, by norm_num,
    (claim_C7_filter_inclusive_bounds (PriceRange.mk 5 20)
        [ProductCard.mk "b" "B" 500 "USD"] (ProductCard.mk "b" "B" 500 "USD")).2
      (by norm_num) (List.mem_singleton_self _) (Or.inl (by norm_num))⟩

/-! ## Agent response contract and page state (`types.ts`, `page.tsx`) -/

/-- The `intent` enum of `AgentResponse` (`apps/web/lib/types.ts`). -/
inductive Intent where
  | smalltalk
  | text_recommendation
  | image_search
deriving Repr, DecidableEq

/-- `AgentResponse` from `apps/web/lib/types.ts`. -/
structure AgentResponse where
  intent : Intent
  text : String
  products : List ProductCard
  follow_up_question : Option String
deriving Repr, DecidableEq

/-- The `HomePage` state fields relevant to the claims (`page.tsx`,
lines 14-19): the stored product list, the displayed filtered list, the
follow-up question, the current price range, and the cart held by the
`CartProvider`. -/
structure UIState where
  products : List ProductCard
  filteredProducts : List ProductCard
  followUp : Option String
  priceRange : PriceRange
  cart : CartState
deriving DecidableEq

/-- `handleResponse` from `page.tsx`, lines 23-34: store the products,
display the price-filtered sublist, store the follow-up question. The
cart is untouched. -/
def handleResponse (st : UIState) (response : AgentResponse) : UIState :=
  { st with
    products := response.products,
    filteredProducts := priceFilter st.priceRange response.products,
    followUp := response.follow_up_question }

/-! ## Agent client error path (`agentClient.ts`, `Chat.tsx`) -/

/-- The observable part of a `fetch` `Response` read by
`sendAgentMessage`: `ok`, `status`, `statusText` and the body text. -/
structure HttpResponse where
  ok : Bool
  status : Nat
  statusText : String
  body : String
deriving Repr, DecidableEq

/-- Outcome of the `fetch` call: a network-level failure (the promise
rejects) or an HTTP response. -/
inductive FetchResult where
  | networkError (message : String)
  | success (response : HttpResponse)
deriving Repr, DecidableEq

/-- `text.slice(0, 200)` — the first 200 characters of the body.
(JS `slice` counts UTF-16 code units; for this embedding characters
suffice, the length bound is the point.) -/
def sliceTo (s : String) (n : Nat) : String := String.mk (s.data.take n)

/-- The error message built by `sendAgentMessage` on a non-2xx response
(`agentClient.ts`, lines 53-59): status code, status text, URL, and a
` - `-prefixed body truncated to 200 characters when the body is
non-empty. -/
def agentFailureMessage (url : String) (r : HttpResponse) : String :=
  let detail := if r.body = "" then "" else " - " ++ sliceTo r.body 200
  "Agent request failed with status " ++ toString r.status ++ " " ++ r.statusText
    ++ " at " ++ url ++ detail

/-- `sendAgentMessage` from `agentClient.ts`, lines 26-63, relative to an
abstract fetch outcome and JSON parser: a rejected fetch propagates, a
non-ok response throws the diagnostic error, an ok response is parsed
into an `AgentResponse` (a parse failure also throws). -/
def sendAgentMessage (url : String) (parseJson : String → Option AgentResponse)
    (result : FetchResult) : Except String AgentResponse :=
  match result with
  | .networkError message => .error message
  | .success r =>
    if r.ok then
      match parseJson r.body with
      | some response => .ok response
      | none => .error "Unexpected end of JSON input"
    else
      .error (agentFailureMessage url r)

/-- `handleSubmit` from `Chat.tsx`, lines 182-205, restricted to its
effect on the page state: on success it calls `onResponse`
(= `handleResponse`); the `catch` branch only logs, so on failure the
page state — product list, filtered list and cart — is left unchanged. -/
def handleSubmitResult (st : UIState) (result : Except String AgentResponse) : UIState :=
  match result with
  | .ok response => handleResponse st response
  | .error _ => st

/-- C8: on a non-2xx HTTP response, `sendAgentMessage` produces exactly
the diagnostic error (which carries the status code and the body
truncated to at most 200 characters), never an `AgentResponse`; the chat
submit handler catches it without calling `onResponse`, leaving the
previously displayed products, filtered list and cart unchanged. -/
theorem claim_C8_error_path (url : String)
    (parseJson : String → Option AgentResponse) (r : HttpResponse)
    (st : UIState) (msg : String) (hok : r.ok = false) :
    sendAgentMessage url parseJson (.success r)
        = .error (agentFailureMessage url r) ∧
    (∀ response : AgentResponse,
      sendAgentMessage url parseJson (.success r) ≠ .ok response) ∧
    (sliceTo r.body 200).length ≤ 200 ∧
    handleSubmitResult st (sendAgentMessage url parseJson (.success r)) = st ∧
    handleSubmitResult st (sendAgentMessage url parseJson (.networkError msg)) = st := by
  have herr : sendAgentMessage url parseJson (.success r)
      = .error (agentFailureMessage url r) := by
    simp [sendAgentMessage, hok]
  refine ⟨herr, ?_, ?_, ?_, rfl⟩
  · intro response
    rw [herr]
    exact fun habs => Except.noConfusion habs
  · show (String.mk (r.body.data.take 200)).length ≤ 200
    have hlen : (String.mk (r.body.data.take 200)).length
        = (r.body.data.take 200).length := rfl
    rw [hlen, List.length_take]
    omega
  · rw [herr]
    rfl

/-- Closed witness for C8: a concrete 500 response with body `"boom"`. -/
theorem claim_C8_error_path_witness :
    (HttpResponse.mk false 500 "Internal Server Error" "boom").ok = false ∧
    sendAgentMessage "http://localhost:8000/agent/chat" (fun _ => none)
        (.success (HttpResponse.mk false 500 "Internal Server Error" "boom"))
      = .error (agentFailureMessage "http://localhost:8000/agent/chat"
          (HttpResponse.mk false 500 "Internal Server Error" "boom")) ∧
    handleSubmitResult
        (UIState.mk [] [] none initialPriceRange emptyCart)
        (sendAgentMessage "http://localhost:8000/agent/chat" (fun _ => none)
          (.success (HttpResponse.mk false 500 "Internal Server Error" "boom")))
      = UIState.mk [] [] none initialPriceRange emptyCart :=
  ⟨rfl,
    (claim_C8_error_path "http://localhost:8000/agent/chat" (fun _ => none)
      (HttpResponse.mk false 500 "Internal Server Error" "boom")
      (UIState.mk [] [] none initialPriceRange emptyCart) "Failed to fetch" rfl).1,
    (claim_C8_error_path "http://localhost:8000/agent/chat" (fun _ => none)
      (HttpResponse.mk false 500 "Internal Server Error" "boom")
      (UIState.mk [] [] none initialPriceRange emptyCart) "Failed to fetch" rfl).2.2.2.1⟩

/-- C9: `UPDATE_QUANTITY` performs no validation of the quantity: for a
present id and any integer `q` (including `0` and negatives) the entry is
kept (same number of entries) with its quantity set verbatim to `q`, and
the total is recomputed from the updated items; concretely, setting
quantity `0` keeps the entry with total `0`, and setting `-2` on a
1000-cent item yields total `-2000`. -/
theorem claim_C9_update_no_validation (s : CartState) (pid : String) (q : Int)
    (_hpresent : ∃ item ∈ s.items, item.id = pid) :
    (cartReducer s (.updateQuantity pid q)).items.length = s.items.length ∧
    (∀ item ∈ s.items, item.id = pid →
      ({ item with quantity := q } : CartItem)
        ∈ (cartReducer s (.updateQuantity pid q)).items) ∧
    (cartReducer s (.updateQuantity pid q)).total
      = cartTotal ((cartReducer s (.updateQuantity pid q)).items) ∧
    cartReducer (CartState.mk [CartItem.mk "p1" "Shoe" 1000 "USD" 1] 1000)
        (.updateQuantity "p1" 0)
      = CartState.mk [CartItem.mk "p1" "Shoe" 1000 "USD" 0] 0 ∧
    cartReducer (CartState.mk [CartItem.mk "p1" "Shoe" 1000 "USD" 1] 1000)
        (.updateQuantity "p1" (-2))
      = CartState.mk [CartItem.mk "p1" "Shoe" 1000 "USD" (-2)] (-2000) := by
  refine ⟨?_, ?_, rfl, ?_, ?_⟩
  · simp [cartReducer]
  · intro item hmem hid
    simp only [cartReducer]
    refine List.mem_map.mpr ⟨item, hmem, ?_⟩
    simp [hid]
  · simp [cartReducer, List.find?, cartTotal]
  · simp [cartReducer, List.find?, cartTotal]

/-- Closed witness for C9: a singleton cart with id `"p1"` present. -/
theorem claim_C9_update_no_validation_witness :
    (∃ item ∈ (CartState.mk [CartItem.mk "p1" "Shoe" 1000 "USD" 1] 1000).items,
      item.id = "p1") ∧
    (cartReducer (CartState.mk [CartItem.mk "p1" "Shoe" 1000 "USD" 1] 1000)
        (.updateQuantity "p1" (-2))).items.length
      = (CartState.mk [CartItem.mk "p1" "Shoe" 1000 "USD" 1] 1000).items.length :=
  ⟨by simp, (claim_C9_update_no_validation
    (CartState.mk [CartItem.mk "p1" "Shoe" 1000 "USD" 1] 1000) "p1" (-2)
    (by simp)).1⟩

/-- C10: the page initializes `priceRange` to `{min: 0, max: 2000}`, so
for any response handled before the user changes the range, a product
with `price_cents > 200000` is stored in `products` but excluded from the
displayed `filteredProducts`. -/
theorem claim_C10_initial_range_excludes (st : UIState)
    (response : AgentResponse) (p : ProductCard)
    (hrange : st.priceRange = initialPriceRange)
    (hmem : p ∈ response.products)
    (hexp : (200000 : Int) < p.price_cents) :
    p ∈ (handleResponse st response).products ∧
    p ∉ (handleResponse st response).filteredProducts := by
  refine ⟨hmem, fun habs => ?_⟩
  have h : p ∈ priceFilter st.priceRange response.products := habs
  rw [hrange] at h
  obtain ⟨-, hcond⟩ := List.mem_filter.mp h
  rw [decide_eq_true_eq] at hcond
  have hle : (p.price_cents : ℚ) / 100 ≤ 2000 := by
    simpa [initialPriceRange] using hcond.2
  rw [div_le_iff₀ (by norm_num : (0:ℚ) < 100)] at hle
  have hcast : (200000 : ℚ) < (p.price_cents : ℚ) := by exact_mod_cast hexp
  linarith

/-- Closed witness for C10: a 2500.00-unit product is stored but not
displayed under the initial range. -/
theorem claim_C10_initial_range_excludes_witness :
    (UIState.mk [] [] none initialPriceRange emptyCart).priceRange
        = initialPriceRange ∧
    ProductCard.mk "e" "E" 250000 "USD"
      ∈ (AgentResponse.mk .text_recommendation ""
          [ProductCard.mk "e" "E" 250000 "USD"] none).products ∧
    (200000 : Int) < (ProductCard.mk "e" "E" 250000 "USD").price_cents ∧
    ProductCard.mk "e" "E" 250000 "USD"
      ∈ (handleResponse (UIState.mk [] [] none initialPriceRange emptyCart)
          (AgentResponse.mk .text_recommendation ""
            [ProductCard.mk "e" "E" 250000 "USD"] none)).products ∧
    ProductCard.mk "e" "E" 250000 "USD"
      ∉ (handleResponse (UIState.mk [] [] none initialPriceRange emptyCart)
          (AgentResponse.mk .text_recommendation ""
            [ProductCard.mk "e" "E" 250000 "USD"] none)).filteredProducts :=
  ⟨rfl, List.mem_singleton_self _, by norm_num,
    (claim_C10_initial_range_excludes
      (UIState.mk [] [] none initialPriceRange emptyCart)
      (AgentResponse.mk .text_recommendation ""
        [ProductCard.mk "e" "E" 250000 "USD"] none)
      (ProductCard.mk "e" "E" 250000 "USD")
      rfl (List.mem_singleton_self _) (by norm_num)).1,
    (claim_C10_initial_range_excludes
      (UIState.mk [] [] none initialPriceRange emptyCart)
      (AgentResponse.mk .text_recommendation ""
        [ProductCard.mk "e" "E" 250000 "USD"] none)
      (ProductCard.mk "e" "E" 250000 "USD")
      rfl (List.mem_singleton_self _) (by norm_num)).2⟩

end ECom
